import Mathlib

/-!
Verification of the SLP decoder harness (src/ffi/main.c) and of the decoding
engine it drives. The harness is embedded directly from the C source; the
decoding engine (`slp_new_from_file` / `slp_free`) is an external library whose
behaviour the harness only observes through a status code and out-parameters,
so the harness model takes the decoder as an oracle. The engine itself is
modelled from the specification where needed.
-/

set_option autoImplicit false

namespace Slp

/-! ## Harness embedding (src/ffi/main.c) -/

/-- Observable actions of the harness: a printf of a literal message, the
printf of the computed image-data length, and a call to `slp_free` with the
given length. -/
inductive Event where
  | print (s : String)
  | printLen (n : Nat)
  | release (len : Nat)
deriving DecidableEq

/-- `const int ERR_NO_ARG = 1;` -/
def ERR_NO_ARG : Int := 1

/-- The usage line printed when `argc != 2`. -/
def usageMsg : String := "usage: cslp <path/to/your.slp>\n"

/-- `size_t` arithmetic is modulo `2 ^ 64` (64-bit platform). -/
def sizeMod : Nat := 18446744073709551616

/-- Conversion of a `ssize_t` value to C `int` (32-bit two-complement wrap),
as performed by `return code;` in `main`, whose return type is `int`. -/
def intWrap (z : Int) : Int := (z + 2147483648) % 4294967296 - 2147483648

/-- The diagnostic message the `switch` in `main` prints for a nonzero status
code; `none` for codes without a `case` label (the `switch` has no default). -/
def errMsg (code : Int) : Option String :=
  if code = 1 then some "\x27file_path\x27 was null!"
  else if code = 2 then some "\x27file_path\x27 contained non-utf8 characters!"
  else if code = -1 then some "Invalid SLP!"
  else if code = -2 then some "SLP had a bad length"
  else if code = -32767 then some "An unknown error occurred while decoding the SLP"
  else none

/-- Result of one run of the harness: the ordered list of observable events
and the value returned from `main`. -/
structure HarnessRun where
  events : List Event
  exitCode : Int
deriving DecidableEq

/-- `main` from src/ffi/main.c. `decode` is the external
`slp_new_from_file`, observed as returning a status code together with the
values written through the `width`/`height` out-parameters; `argv` is the C
argument vector (program name included, so `argc = argv.length`). -/
def runMain (decode : String → Int × Nat × Nat) (argv : List String) : HarnessRun :=
  match argv with
  | [_, path] =>
    let r := decode path
    let code := r.1
    let w := r.2.1
    let h := r.2.2
    if code ≠ 0 then
      { events := match errMsg code with
          | some m => [Event.print m]
          | none => []
        exitCode := intWrap code }
    else
      let len := w * h % sizeMod
      { events := [Event.printLen len, Event.release len], exitCode := 0 }
  | _ => { events := [Event.print usageMsg], exitCode := ERR_NO_ARG }

/-- Whether an event is a `slp_free` call. -/
def isRelease : Event → Bool
  | .release _ => true
  | _ => false

/-- How many times the run called `slp_free`. -/
def releaseCount (r : HarnessRun) : Nat := (r.events.filter isRelease).length

/-! ## The decoding engine, modelled from the spec

The engine behind `slp_new_from_file` is not part of the C sources; the
definitions below are modelled from the specification (its error taxonomy,
byte cursor, header parser, frame directory and scanline command interpreter).
Where the spec deliberately leaves the literal byte layout open, a concrete
little-endian layout is fixed so the definitions stay executable. -/

/-- Modelled from the spec: the closed error-kind enumeration of the decoding
engine (format, directory, cursor and interpreter failures). -/
inductive SlpError where
  | TruncatedHeader
  | InvalidFormat
  | OutOfBounds
  | BadDirectoryEntry
  | RowOverrun
  | RowLengthMismatch
  | UnknownCommand
  | PaletteIndexOutOfRange
deriving DecidableEq

/-- Modelled from the spec: the one-to-one mapping from error kinds to the
legacy integer status codes at the outermost boundary (`-1` format
validation, `-2` length/offset mismatch, `-32767` interpreter catch-all). -/
def errCode : SlpError → Int
  | .TruncatedHeader => -2
  | .InvalidFormat => -1
  | .OutOfBounds => -2
  | .BadDirectoryEntry => -2
  | .RowOverrun => -32767
  | .RowLengthMismatch => -32767
  | .UnknownCommand => -32767
  | .PaletteIndexOutOfRange => -32767

/-- Modelled from the spec: bounds-checked single-byte read of the byte
cursor; fails with `OutOfBounds` past the container length. -/
def read_u8 (c : List Nat) (off : Nat) : Except SlpError Nat :=
  match c.get? off with
  | some b => .ok b
  | none => .error .OutOfBounds

/-- Modelled from the spec: bounds-checked little-endian `u32` read. -/
def read_u32_le (c : List Nat) (off : Nat) : Except SlpError Nat := do
  let b0 ← read_u8 c off
  let b1 ← read_u8 c (off + 1)
  let b2 ← read_u8 c (off + 2)
  let b3 ← read_u8 c (off + 3)
  .ok (b0 + 256 * b1 + 65536 * b2 + 16777216 * b3)

/-- Modelled from the spec: the fixed magic tag of the container (a concrete
four-byte value, since the spec fixes only that a byte-exact tag exists). -/
def slpMagic : List Nat := [50, 46, 48, 78]

/-- Modelled from the spec: size of the fixed header (magic tag plus a
little-endian `u32` frame count). -/
def headerSize : Nat := 8

/-- Modelled from the spec: §4.2 header parse. Fails with `TruncatedHeader`
when the container is shorter than the fixed header, with `InvalidFormat`
when the magic tag mismatches; otherwise yields the frame count. -/
def checkHeader (c : List Nat) : Except SlpError Nat :=
  if c.length < headerSize then .error .TruncatedHeader
  else if c.take 4 = slpMagic then read_u32_le c 4
  else .error .InvalidFormat

/-- Modelled from the spec: a frame-directory descriptor record. -/
structure FrameDescriptor where
  image_data_offset : Nat
  outline_data_offset : Nat
  width : Nat
  height : Nat
  anchor_x : Nat
  anchor_y : Nat
deriving DecidableEq

/-- Modelled from the spec: byte size of one directory record
(six little-endian `u32` fields). -/
def descriptorSize : Nat := 24

/-- Modelled from the spec: bounds-checked read of one directory record. -/
def readDescriptor (c : List Nat) (off : Nat) : Except SlpError FrameDescriptor := do
  let imgOff ← read_u32_le c off
  let outOff ← read_u32_le c (off + 4)
  let w ← read_u32_le c (off + 8)
  let h ← read_u32_le c (off + 12)
  let ax ← read_u32_le c (off + 16)
  let ay ← read_u32_le c (off + 20)
  .ok ⟨imgOff, outOff, w, h, ax, ay⟩

/-- Modelled from the spec: the sane upper bound on frame dimensions used to
reject absurd sizes whose product could overflow. -/
def maxDim : Nat := 65535

/-- Modelled from the spec: §4.3 per-record validation - the image data
offset must be strictly within the container, and the dimensions within the
sane bound. -/
def validDescriptor (clen : Nat) (d : FrameDescriptor) : Bool :=
  decide (d.image_data_offset < clen) && decide (d.width ≤ maxDim) &&
    decide (d.height ≤ maxDim)

/-- Modelled from the spec: §4.3 directory read - `n` records starting at
`off`, each validated as it is read; any violation aborts the whole decode
with `BadDirectoryEntry` (no partial frame list is surfaced). -/
def readDirectory (c : List Nat) : Nat → Nat → Except SlpError (List FrameDescriptor)
  | 0, _ => .ok []
  | n + 1, off => do
    let d ← readDescriptor c off
    if validDescriptor c.length d then do
      let rest ← readDirectory c n (off + descriptorSize)
      .ok (d :: rest)
    else .error .BadDirectoryEntry

/-- Modelled from the spec: the decode pipeline up to frame decoding - header
validation, then the fully validated directory, then the first frame's pixels
via the given frame decoder, returning the buffer with its width and height.
The frame decoder is kept abstract here because the spec leaves the command
byte encoding open; the interpreter itself is modelled separately below. -/
def slp_decode
    (decodeFrame : List Nat → FrameDescriptor → Except SlpError (List Nat))
    (c : List Nat) : Except SlpError (List Nat × Nat × Nat) := do
  let fc ← checkHeader c
  let descs ← readDirectory c fc headerSize
  match descs with
  | [] => .error .InvalidFormat
  | d :: _ => do
    let buf ← decodeFrame c d
    .ok (buf, d.width, d.height)

/-! ### Palette resolver and scanline command interpreter -/

/-- Modelled from the spec: the read-only palette, a table from byte index to
a concrete color value. -/
structure Palette where
  colors : List Nat
deriving DecidableEq

/-- Modelled from the spec: §4.5 plain palette resolution; fails with
`PaletteIndexOutOfRange` only when the table itself is short. -/
def resolveColor (pal : Palette) (idx : Nat) : Except SlpError Nat :=
  match pal.colors.get? idx with
  | some col => .ok col
  | none => .error .PaletteIndexOutOfRange

/-- Modelled from the spec: stride of the per-player secondary remap of the
reserved player-color index range. -/
def playerStride : Nat := 16

/-- Modelled from the spec: §4.5 player-color resolution through the remap
selected by the player identifier. -/
def resolvePlayerColor (pal : Palette) (player idx : Nat) : Except SlpError Nat :=
  resolveColor pal (idx + playerStride * player)

/-- Modelled from the spec: the fixed shadow color that shadow indices
resolve to, bypassing the palette. -/
def shadowColor : Nat := 253

/-- Modelled from the spec: the transparent pixel value written for skipped
runs (0 denotes fully transparent). -/
def transparentPixel : Nat := 0

/-- Modelled from the spec: §3 the tagged command variants produced from the
command stream. -/
inductive Command where
  | RawPixels (indices : List Nat)
  | SkipTransparent (n : Nat)
  | RepeatFill (n : Nat) (value : Nat)
  | PlayerColorRun (indices : List Nat)
  | ShadowRun (n : Nat)
  | EndOfRow
deriving DecidableEq

/-- The pixel count a command declares it will write; `EndOfRow` declares
none. -/
def declaredCount : Command → Option Nat
  | .RawPixels idxs => some idxs.length
  | .SkipTransparent n => some n
  | .RepeatFill n _ => some n
  | .PlayerColorRun idxs => some idxs.length
  | .ShadowRun n => some n
  | .EndOfRow => none

/-- Resolve a list of palette indices with the given resolver, failing as
soon as one index fails. -/
def resolveAll (f : Nat → Except SlpError Nat) : List Nat → Except SlpError (List Nat)
  | [] => .ok []
  | i :: rest => do
    let c ← f i
    let cs ← resolveAll f rest
    .ok (c :: cs)

/-- Modelled from the spec: §4.4 the scanline command interpreter. State is
`pw` (`pixels_written`) together with the pixels `acc` written so far; the
row is done as soon as `pw = width`; a command whose declared count would
push `pw` past `width` fails with `RowOverrun`; `EndOfRow` read while
`pw` differs from `width` fails with `RowLengthMismatch`, as does running out
of commands before the row is full. -/
def runRow (pal : Palette) (player width : Nat) :
    Nat → List Nat → List Command → Except SlpError (List Nat)
  | pw, acc, [] => if pw = width then .ok acc else .error .RowLengthMismatch
  | pw, acc, cmd :: rest =>
    if pw = width then .ok acc
    else match cmd with
      | .EndOfRow => .error .RowLengthMismatch
      | .RawPixels idxs =>
        if width < pw + idxs.length then .error .RowOverrun
        else do
          let cols ← resolveAll (resolveColor pal) idxs
          runRow pal player width (pw + idxs.length) (acc ++ cols) rest
      | .SkipTransparent n =>
        if width < pw + n then .error .RowOverrun
        else runRow pal player width (pw + n)
          (acc ++ List.replicate n transparentPixel) rest
      | .RepeatFill n v =>
        if width < pw + n then .error .RowOverrun
        else do
          let col ← resolveColor pal v
          runRow pal player width (pw + n) (acc ++ List.replicate n col) rest
      | .PlayerColorRun idxs =>
        if width < pw + idxs.length then .error .RowOverrun
        else do
          let cols ← resolveAll (resolvePlayerColor pal player) idxs
          runRow pal player width (pw + idxs.length) (acc ++ cols) rest
      | .ShadowRun n =>
        if width < pw + n then .error .RowOverrun
        else runRow pal player width (pw + n)
          (acc ++ List.replicate n shadowColor) rest

/-- Modelled from the spec: §4.6 the buffer assembler - each row interpreted
from its own command list (indexed by row number, per the row-offset table),
concatenated top to bottom; any row failure aborts the whole frame. -/
def decodeRows (pal : Palette) (player width : Nat) :
    List (List Command) → Except SlpError (List Nat)
  | [] => .ok []
  | r :: rs => do
    let row ← runRow pal player width 0 [] r
    let rest ← decodeRows pal player width rs
    .ok (row ++ rest)

/-! ### Helper lemmas about the harness model -/

theorem intWrap_eq_self (z : Int) (h1 : -2147483648 ≤ z) (h2 : z < 2147483648) :
    intWrap z = z := by
  unfold intWrap
  omega

/-! ### Helper lemmas -/

theorem exc_bind_ok {ε α β : Type} (a : α) (g : α → Except ε β) :
    (Except.ok a : Except ε α) >>= g = g a := rfl

theorem exc_bind_error {ε α β : Type} (e : ε) (g : α → Except ε β) :
    (Except.error e : Except ε α) >>= g = Except.error e := rfl

theorem resolveAll_length (f : Nat → Except SlpError Nat) :
    ∀ (l cs : List Nat), resolveAll f l = .ok cs → cs.length = l.length := by
  intro l
  induction l with
  | nil =>
    intro cs h
    simp [resolveAll] at h
    simp [← h]
  | cons i rest ih =>
    intro cs h
    cases hf : f i with
    | error e => simp [resolveAll, hf, exc_bind_error] at h
    | ok c =>
      cases hr : resolveAll f rest with
      | error e => simp [resolveAll, hf, hr, exc_bind_ok, exc_bind_error] at h
      | ok cs2 =>
        simp [resolveAll, hf, hr, exc_bind_ok] at h
        subst h
        simp [ih cs2 hr]

theorem runRow_ok_length (pal : Palette) (player width : Nat) :
    ∀ (cmds : List Command) (pw : Nat) (acc row : List Nat),
      acc.length = pw → pw ≤ width →
      runRow pal player width pw acc cmds = .ok row → row.length = width := by
  intro cmds
  induction cmds with
  | nil =>
    intro pw acc row hlen hle h
    by_cases hpw : pw = width
    · simp [runRow, hpw] at h
      subst h
      omega
    · simp [runRow, hpw] at h
  | cons cmd rest ih =>
    intro pw acc row hlen hle h
    by_cases hpw : pw = width
    · simp [runRow, hpw] at h
      subst h
      omega
    · cases cmd with
      | EndOfRow => simp [runRow, hpw] at h
      | RawPixels idxs =>
        by_cases hov : width < pw + idxs.length
        · simp [runRow, hpw, hov] at h
        · cases hres : resolveAll (resolveColor pal) idxs with
          | error e => simp [runRow, hpw, hov, hres, exc_bind_error] at h
          | ok cols =>
            simp only [runRow, if_neg hpw, if_neg hov, hres, exc_bind_ok] at h
            refine ih (pw + idxs.length) (acc ++ cols) row ?_ (by omega) h
            have hcl := resolveAll_length (resolveColor pal) idxs cols hres
            simp [hcl, hlen]
      | SkipTransparent n =>
        by_cases hov : width < pw + n
        · simp [runRow, hpw, hov] at h
        · simp only [runRow, if_neg hpw, if_neg hov] at h
          exact ih (pw + n) (acc ++ List.replicate n transparentPixel) row
            (by simp [hlen]) (by omega) h
      | RepeatFill n v =>
        by_cases hov : width < pw + n
        · simp [runRow, hpw, hov] at h
        · cases hcol : resolveColor pal v with
          | error e => simp [runRow, hpw, hov, hcol, exc_bind_error] at h
          | ok col =>
            simp only [runRow, if_neg hpw, if_neg hov, hcol, exc_bind_ok] at h
            exact ih (pw + n) (acc ++ List.replicate n col) row
              (by simp [hlen]) (by omega) h
      | PlayerColorRun idxs =>
        by_cases hov : width < pw + idxs.length
        · simp [runRow, hpw, hov] at h
        · cases hres : resolveAll (resolvePlayerColor pal player) idxs with
          | error e => simp [runRow, hpw, hov, hres, exc_bind_error] at h
          | ok cols =>
            simp only [runRow, if_neg hpw, if_neg hov, hres, exc_bind_ok] at h
            refine ih (pw + idxs.length) (acc ++ cols) row ?_ (by omega) h
            have hcl := resolveAll_length (resolvePlayerColor pal player) idxs cols hres
            simp [hcl, hlen]
      | ShadowRun n =>
        by_cases hov : width < pw + n
        · simp [runRow, hpw, hov] at h
        · simp only [runRow, if_neg hpw, if_neg hov] at h
          exact ih (pw + n) (acc ++ List.replicate n shadowColor) row
            (by simp [hlen]) (by omega) h

theorem runRow_overrun_error (pal : Palette) (player width pw : Nat) (acc : List Nat)
    (cmd : Command) (rest : List Command) (n : Nat)
    (hpw : pw < width) (hc : declaredCount cmd = some n) (hov : width < pw + n) :
    runRow pal player width pw acc (cmd :: rest) = .error .RowOverrun := by
  have hne : ¬ pw = width := by omega
  cases cmd with
  | EndOfRow => simp [declaredCount] at hc
  | RawPixels idxs =>
    simp only [declaredCount, Option.some.injEq] at hc
    subst hc
    simp [runRow, hne, hov]
  | SkipTransparent m =>
    simp only [declaredCount, Option.some.injEq] at hc
    subst hc
    simp [runRow, hne, hov]
  | RepeatFill m v =>
    simp only [declaredCount, Option.some.injEq] at hc
    subst hc
    simp [runRow, hne, hov]
  | PlayerColorRun idxs =>
    simp only [declaredCount, Option.some.injEq] at hc
    subst hc
    simp [runRow, hne, hov]
  | ShadowRun m =>
    simp only [declaredCount, Option.some.injEq] at hc
    subst hc
    simp [runRow, hne, hov]

theorem decodeRows_ok_no_overrun (pal : Palette) (player width : Nat) :
    ∀ (rows : List (List Command)) (buf : List Nat),
      decodeRows pal player width rows = .ok buf →
      ∀ r ∈ rows, runRow pal player width 0 [] r ≠ .error .RowOverrun := by
  intro rows
  induction rows with
  | nil =>
    intro buf _ r hr
    simp at hr
  | cons r0 rs ih =>
    intro buf h r hr
    cases h0 : runRow pal player width 0 [] r0 with
    | error e => simp [decodeRows, h0, exc_bind_error] at h
    | ok row0 =>
      cases hrs : decodeRows pal player width rs with
      | error e => simp [decodeRows, h0, hrs, exc_bind_ok, exc_bind_error] at h
      | ok rest =>
        rcases List.mem_cons.mp hr with rfl | hmem
        · simp [h0]
        · exact ih rest hrs r hmem

theorem read_u8_error (c : List Nat) (off : Nat) (e : SlpError)
    (h : read_u8 c off = .error e) : e = .OutOfBounds := by
  unfold read_u8 at h
  cases hg : c.get? off with
  | some b =>
    rw [hg] at h
    exact Except.noConfusion h
  | none =>
    rw [hg] at h
    exact (Except.error.inj h).symm

theorem read_u32_le_error (c : List Nat) (off : Nat) (e : SlpError)
    (h : read_u32_le c off = .error e) : e = .OutOfBounds := by
  cases h0 : read_u8 c off with
  | error e0 =>
    simp [read_u32_le, h0, exc_bind_error] at h
    exact h ▸ read_u8_error c off e0 h0
  | ok b0 =>
  cases h1 : read_u8 c (off + 1) with
  | error e1 =>
    simp [read_u32_le, h0, h1, exc_bind_ok, exc_bind_error] at h
    exact h ▸ read_u8_error c (off + 1) e1 h1
  | ok b1 =>
  cases h2 : read_u8 c (off + 2) with
  | error e2 =>
    simp [read_u32_le, h0, h1, h2, exc_bind_ok, exc_bind_error] at h
    exact h ▸ read_u8_error c (off + 2) e2 h2
  | ok b2 =>
  cases h3 : read_u8 c (off + 3) with
  | error e3 =>
    simp [read_u32_le, h0, h1, h2, h3, exc_bind_ok, exc_bind_error] at h
    exact h ▸ read_u8_error c (off + 3) e3 h3
  | ok b3 =>
    simp [read_u32_le, h0, h1, h2, h3, exc_bind_ok] at h

theorem readDescriptor_error (c : List Nat) (off : Nat) (e : SlpError)
    (h : readDescriptor c off = .error e) : e = .OutOfBounds := by
  cases h0 : read_u32_le c off with
  | error e0 =>
    simp [readDescriptor, h0, exc_bind_error] at h
    exact h ▸ read_u32_le_error c off e0 h0
  | ok v0 =>
  cases h1 : read_u32_le c (off + 4) with
  | error e1 =>
    simp [readDescriptor, h0, h1, exc_bind_ok, exc_bind_error] at h
    exact h ▸ read_u32_le_error c (off + 4) e1 h1
  | ok v1 =>
  cases h2 : read_u32_le c (off + 8) with
  | error e2 =>
    simp [readDescriptor, h0, h1, h2, exc_bind_ok, exc_bind_error] at h
    exact h ▸ read_u32_le_error c (off + 8) e2 h2
  | ok v2 =>
  cases h3 : read_u32_le c (off + 12) with
  | error e3 =>
    simp [readDescriptor, h0, h1, h2, h3, exc_bind_ok, exc_bind_error] at h
    exact h ▸ read_u32_le_error c (off + 12) e3 h3
  | ok v3 =>
  cases h4 : read_u32_le c (off + 16) with
  | error e4 =>
    simp [readDescriptor, h0, h1, h2, h3, h4, exc_bind_ok, exc_bind_error] at h
    exact h ▸ read_u32_le_error c (off + 16) e4 h4
  | ok v4 =>
  cases h5 : read_u32_le c (off + 20) with
  | error e5 =>
    simp [readDescriptor, h0, h1, h2, h3, h4, h5, exc_bind_ok, exc_bind_error] at h
    exact h ▸ read_u32_le_error c (off + 20) e5 h5
  | ok v5 =>
    simp [readDescriptor, h0, h1, h2, h3, h4, h5, exc_bind_ok] at h

/-- Any violation inside the directory read (an out-of-bounds record read, or
a record whose image data offset reaches past the container) aborts the
directory with a status of the `-2` class. -/
theorem readDirectory_abort (c : List Nat) :
    ∀ (n off : Nat),
      (∃ (i : Nat) (d : FrameDescriptor), i < n ∧
        readDescriptor c (off + descriptorSize * i) = .ok d ∧
        c.length ≤ d.image_data_offset) →
      ∃ e, readDirectory c n off = .error e ∧ errCode e = -2 := by
  intro n
  induction n with
  | zero =>
    rintro off ⟨i, d, hi, -, -⟩
    omega
  | succ m ih =>
    rintro off ⟨i, d, hi, hd, hbad⟩
    cases h0 : readDescriptor c off with
    | error e =>
      refine ⟨e, ?_, ?_⟩
      · simp [readDirectory, h0, exc_bind_error]
      · rw [readDescriptor_error c off e h0]
        rfl
    | ok d0 =>
      cases hv : validDescriptor c.length d0 with
      | false =>
        refine ⟨.BadDirectoryEntry, ?_, rfl⟩
        simp [readDirectory, h0, hv, exc_bind_ok]
      | true =>
        cases i with
        | zero =>
          exfalso
          rw [Nat.mul_zero, Nat.add_zero, h0] at hd
          injection hd with hdd
          subst hdd
          simp only [validDescriptor, Bool.and_eq_true, decide_eq_true_eq] at hv
          omega
        | succ j =>
          obtain ⟨e, he, hcode⟩ := ih (off + descriptorSize)
            ⟨j, d, by omega, by rw [show off + descriptorSize + descriptorSize * j =
              off + descriptorSize * (j + 1) by ring]; exact hd, hbad⟩
          refine ⟨e, ?_, hcode⟩
          simp [readDirectory, h0, hv, exc_bind_ok, he, exc_bind_error]

/-! ## Claims about the harness -/

/-- C1: when `decode` returns one of the five documented nonzero status codes
(1, 2, -1, -2, -32767), the harness prints exactly the human-readable message
for that code, performs no release and no other work, and returns the status
code unchanged as its exit status. -/
theorem harness_maps_known_codes
    (decode : String → Int × Nat × Nat) (prog path : String)
    (code : Int) (w h : Nat) (hd : decode path = (code, w, h))
    (hmem : code = 1 ∨ code = 2 ∨ code = -1 ∨ code = -2 ∨ code = -32767) :
    (runMain decode [prog, path]).events =
      [Event.print (if code = 1 then "\x27file_path\x27 was null!"
        else if code = 2 then "\x27file_path\x27 contained non-utf8 characters!"
        else if code = -1 then "Invalid SLP!"
        else if code = -2 then "SLP had a bad length"
        else "An unknown error occurred while decoding the SLP")] ∧
    (runMain decode [prog, path]).exitCode = code ∧
    releaseCount (runMain decode [prog, path]) = 0 := by
  rcases hmem with rfl | rfl | rfl | rfl | rfl <;>
    simp [runMain, hd, errMsg, releaseCount, isRelease, intWrap]

/-- C1 witness: concrete run with decode status -32767. -/
theorem harness_maps_known_codes_witness :
    (runMain (fun _ => (-32767, 0, 0)) ["cslp", "a.slp"]).events =
      [Event.print "An unknown error occurred while decoding the SLP"] ∧
    (runMain (fun _ => (-32767, 0, 0)) ["cslp", "a.slp"]).exitCode = -32767 ∧
    releaseCount (runMain (fun _ => (-32767, 0, 0)) ["cslp", "a.slp"]) = 0 := by
  have h := harness_maps_known_codes (fun _ => (-32767, 0, 0)) "cslp" "a.slp"
    (-32767) 0 0 rfl (by norm_num)
  simpa using h

/-- C2: when `decode` returns status 0 with width `w` and height `h` whose
product fits in `size_t` (as the engine contract guarantees), the harness
calls release exactly once, with length exactly `w * h`, and exits with 0. -/
theorem harness_releases_once_on_success
    (decode : String → Int × Nat × Nat) (prog path : String)
    (w h : Nat) (hd : decode path = (0, w, h)) (hfit : w * h < sizeMod) :
    (runMain decode [prog, path]).events =
      [Event.printLen (w * h), Event.release (w * h)] ∧
    releaseCount (runMain decode [prog, path]) = 1 ∧
    (runMain decode [prog, path]).exitCode = 0 := by
  simp [runMain, hd, releaseCount, isRelease, Nat.mod_eq_of_lt hfit]

/-- C2 witness: concrete successful run with a 2 by 3 frame. -/
theorem harness_releases_once_on_success_witness :
    (runMain (fun _ => (0, 2, 3)) ["cslp", "a.slp"]).events =
      [Event.printLen 6, Event.release 6] ∧
    releaseCount (runMain (fun _ => (0, 2, 3)) ["cslp", "a.slp"]) = 1 ∧
    (runMain (fun _ => (0, 2, 3)) ["cslp", "a.slp"]).exitCode = 0 := by
  have h := harness_releases_once_on_success (fun _ => (0, 2, 3)) "cslp" "a.slp"
    2 3 rfl (by norm_num [sizeMod])
  simpa using h

/-- C3: whenever `decode` returns a nonzero status, the harness returns
without ever calling release. -/
theorem harness_no_release_on_failure
    (decode : String → Int × Nat × Nat) (prog path : String)
    (code : Int) (w h : Nat) (hd : decode path = (code, w, h)) (hne : code ≠ 0) :
    releaseCount (runMain decode [prog, path]) = 0 := by
  cases hm : errMsg code <;>
    simp [runMain, hd, hne, hm, releaseCount, isRelease]

/-- C3 witness: concrete failing run. -/
theorem harness_no_release_on_failure_witness :
    releaseCount (runMain (fun _ => (-2, 5, 5)) ["cslp", "a.slp"]) = 0 :=
  harness_no_release_on_failure (fun _ => (-2, 5, 5)) "cslp" "a.slp"
    (-2) 5 5 rfl (by norm_num)

/-- C4: when the path argument is absent (`argv` holds only the program
name, so `argc = 1 ≠ 2`), the harness exits with status `ERR_NO_ARG = 1` and
the decoder is never reached: the run is identical for every decoder. -/
theorem harness_missing_path
    (decode decode2 : String → Int × Nat × Nat) (prog : String) :
    (runMain decode [prog]).exitCode = ERR_NO_ARG ∧
    ERR_NO_ARG = 1 ∧
    runMain decode [prog] = runMain decode2 [prog] := by
  refine ⟨rfl, rfl, rfl⟩

/-- C9 counterexample: `decode` status `2^32 = 4294967296` is nonzero and has
no `case` label, yet the harness's exit status is `intWrap` of it, namely 0,
not the status code unchanged. -/
theorem harness_unknown_code_not_unchanged :
    ((fun (_ : String) => ((4294967296 : Int), 0, 0)) "a.slp").1 ≠ 0 ∧
    errMsg ((fun (_ : String) => ((4294967296 : Int), 0, 0)) "a.slp").1 = none ∧
    (runMain (fun _ => ((4294967296 : Int), 0, 0)) ["cslp", "a.slp"]).exitCode = 0 ∧
    (runMain (fun _ => ((4294967296 : Int), 0, 0)) ["cslp", "a.slp"]).exitCode ≠ 4294967296 := by
  refine ⟨by norm_num, by decide, by decide, by decide⟩

/-- C9 (amended): for a nonzero status outside {1, 2, -1, -2, -32767} the
harness prints nothing and calls no release, and exits with the status code
converted to C `int` width (wrapped modulo `2 ^ 32`); in particular the code is
returned unchanged whenever it is representable as a 32-bit `int`. -/
theorem harness_silent_on_unknown_codes
    (decode : String → Int × Nat × Nat) (prog path : String)
    (code : Int) (w h : Nat) (hd : decode path = (code, w, h)) (hne : code ≠ 0)
    (h1 : code ≠ 1) (h2 : code ≠ 2) (h3 : code ≠ -1) (h4 : code ≠ -2)
    (h5 : code ≠ -32767) :
    (runMain decode [prog, path]).events = [] ∧
    releaseCount (runMain decode [prog, path]) = 0 ∧
    (runMain decode [prog, path]).exitCode = intWrap code ∧
    (-2147483648 ≤ code → code < 2147483648 →
      (runMain decode [prog, path]).exitCode = code) := by
  have hm : errMsg code = none := by simp [errMsg, h1, h2, h3, h4, h5]
  refine ⟨?_, ?_, ?_, ?_⟩ <;>
    simp [runMain, hd, hne, hm, releaseCount, isRelease]
  intro hlo hhi
  exact intWrap_eq_self code hlo hhi

/-- C9 witness: concrete run with the undocumented status 5. -/
theorem harness_silent_on_unknown_codes_witness :
    (runMain (fun _ => ((5 : Int), 0, 0)) ["cslp", "a.slp"]).events = [] ∧
    releaseCount (runMain (fun _ => ((5 : Int), 0, 0)) ["cslp", "a.slp"]) = 0 ∧
    (runMain (fun _ => ((5 : Int), 0, 0)) ["cslp", "a.slp"]).exitCode = intWrap 5 ∧
    (-2147483648 ≤ (5 : Int) → (5 : Int) < 2147483648 →
      (runMain (fun _ => ((5 : Int), 0, 0)) ["cslp", "a.slp"]).exitCode = 5) :=
  harness_silent_on_unknown_codes (fun _ => ((5 : Int), 0, 0)) "cslp" "a.slp"
    5 0 0 rfl (by norm_num) (by norm_num) (by norm_num) (by norm_num)
    (by norm_num) (by norm_num)

/-- C10: on success the printed length and the released length are the same
value, the `size_t` product `w * h % 2 ^ 64`; when the true product overflows,
the wrapped value is what is printed and released. -/
theorem harness_length_is_wrapped_product
    (decode : String → Int × Nat × Nat) (prog path : String)
    (w h : Nat) (hd : decode path = (0, w, h)) :
    (runMain decode [prog, path]).events =
      [Event.printLen (w * h % sizeMod), Event.release (w * h % sizeMod)] ∧
    sizeMod = 2 ^ 64 := by
  refine ⟨by simp [runMain, hd], by norm_num [sizeMod]⟩

/-- C10 witness: with `w = h = 2^32` the true product is `2^64`, and the
value printed and released is the wrapped product 0. -/
theorem harness_length_is_wrapped_product_witness :
    (runMain (fun _ => ((0 : Int), 4294967296, 4294967296)) ["cslp", "a.slp"]).events =
      [Event.printLen (4294967296 * 4294967296 % sizeMod),
        Event.release (4294967296 * 4294967296 % sizeMod)] ∧
    4294967296 * 4294967296 % sizeMod = 0 := by
  refine ⟨(harness_length_is_wrapped_product
    (fun _ => ((0 : Int), 4294967296, 4294967296)) "cslp" "a.slp"
    4294967296 4294967296 rfl).1, by decide⟩

/-! ## Claims about the decoding engine -/

/-- C5: for every row, a command whose declared count would push
`pixels_written` past the width makes the interpreter fail with `RowOverrun`;
a successfully interpreted row has exactly `width` pixels (never truncated,
wrapped or clipped); and a frame decode that contains an overrunning row
never succeeds - it aborts. -/
theorem row_overrun_aborts (pal : Palette) (player width : Nat) :
    (∀ (cmds : List Command) (row : List Nat),
      runRow pal player width 0 [] cmds = .ok row → row.length = width) ∧
    (∀ (pw : Nat) (acc : List Nat) (cmd : Command) (rest : List Command) (n : Nat),
      pw < width → declaredCount cmd = some n → width < pw + n →
      runRow pal player width pw acc (cmd :: rest) = .error .RowOverrun) ∧
    (∀ (rows : List (List Command)) (buf : List Nat),
      decodeRows pal player width rows = .ok buf →
      ∀ r ∈ rows, runRow pal player width 0 [] r ≠ .error .RowOverrun) := by
  refine ⟨?_, ?_, decodeRows_ok_no_overrun pal player width⟩
  · intro cmds row h
    exact runRow_ok_length pal player width cmds 0 [] row rfl (Nat.zero_le _) h
  · intro pw acc cmd rest n h1 h2 h3
    exact runRow_overrun_error pal player width pw acc cmd rest n h1 h2 h3

/-- C5 witness: at width 2 with one pixel already written, a skip of 3 would
overrun the row and the interpreter fails with `RowOverrun`. -/
theorem row_overrun_aborts_witness :
    runRow ⟨[7]⟩ 0 2 1 [7] [Command.SkipTransparent 3] =
      .error SlpError.RowOverrun :=
  (row_overrun_aborts ⟨[7]⟩ 0 2).2.1 1 [7] (Command.SkipTransparent 3) [] 3
    (by decide) (by decide) (by decide)

/-- C6: a container at least as long as the header whose magic tag region
differs from the fixed magic in at least one byte (every corrupting mutation
of a magic byte produces such a container) is rejected by `slp_decode` with
`InvalidFormat`, whose boundary status code is `-1`, and no buffer is
produced - the result is an error, whatever the frame decoder. -/
theorem corrupted_magic_rejected
    (decodeFrame : List Nat → FrameDescriptor → Except SlpError (List Nat))
    (c : List Nat) (hlen : headerSize ≤ c.length)
    (hbad : ∃ i, i < 4 ∧ c.get? i ≠ slpMagic.get? i) :
    slp_decode decodeFrame c = .error SlpError.InvalidFormat ∧
    errCode SlpError.InvalidFormat = -1 := by
  have htake : ¬ c.take 4 = slpMagic := by
    intro heq
    obtain ⟨i, hi4, hne⟩ := hbad
    apply hne
    rw [← List.get?_take hi4, heq]
  have hch : checkHeader c = .error .InvalidFormat := by
    unfold checkHeader
    rw [if_neg (by unfold headerSize at hlen ⊢; omega), if_neg htake]
  refine ⟨?_, rfl⟩
  simp [slp_decode, hch, exc_bind_error]

/-- C6 witness: an 8-byte container whose first magic byte is corrupted
(50 becomes 0) is rejected with `InvalidFormat`, status `-1`. -/
theorem corrupted_magic_rejected_witness :
    slp_decode (fun _ _ => Except.ok ([] : List Nat)) [0, 46, 48, 78, 0, 0, 0, 0] =
      .error SlpError.InvalidFormat ∧
    errCode SlpError.InvalidFormat = -1 :=
  corrupted_magic_rejected (fun _ _ => Except.ok ([] : List Nat))
    [0, 46, 48, 78, 0, 0, 0, 0] (by decide) ⟨0, by decide, by decide⟩

/-- C7: whenever any directory entry `i` (not only the first) declares an
`image_data_offset` at or past the container length - one past the end
included - `slp_decode` fails with a status of the `-2` class, whatever the
frame decoder. -/
theorem bad_offset_entry_rejected
    (decodeFrame : List Nat → FrameDescriptor → Except SlpError (List Nat))
    (c : List Nat) (fc i : Nat) (d : FrameDescriptor)
    (hh : checkHeader c = .ok fc) (hi : i < fc)
    (hd : readDescriptor c (headerSize + descriptorSize * i) = .ok d)
    (hbad : c.length ≤ d.image_data_offset) :
    ∃ e, slp_decode decodeFrame c = .error e ∧ errCode e = -2 := by
  obtain ⟨e, he, hcode⟩ := readDirectory_abort c fc headerSize ⟨i, d, hi, hd, hbad⟩
  refine ⟨e, ?_, hcode⟩
  simp [slp_decode, hh, exc_bind_ok, he, exc_bind_error]

/-- C7 witness: a 32-byte container with one frame whose descriptor sets
`image_data_offset` to 32, exactly one past the end, is rejected with a `-2`
status. -/
theorem bad_offset_entry_rejected_witness :
    ∃ e, slp_decode (fun _ _ => Except.ok ([] : List Nat))
      [50, 46, 48, 78, 1, 0, 0, 0,
        32, 0, 0, 0, 0, 0, 0, 0, 1, 0, 0, 0, 1, 0, 0, 0,
        0, 0, 0, 0, 0, 0, 0, 0] = .error e ∧ errCode e = -2 :=
  bad_offset_entry_rejected (fun _ _ => Except.ok ([] : List Nat))
    [50, 46, 48, 78, 1, 0, 0, 0,
      32, 0, 0, 0, 0, 0, 0, 0, 1, 0, 0, 0, 1, 0, 0, 0,
      0, 0, 0, 0, 0, 0, 0, 0] 1 0 ⟨32, 0, 1, 1, 0, 0⟩
    rfl (by decide) rfl (by decide)

end Slp
